import Mathlib

/-!
Verification of the thermal-management system: a shallow embedding of
`src/thermal_manager.py` (the hysteresis controller, override gate and
ambient sensor read) and `src/ambient_temp_estimator.py` (the
ambient-temperature estimator), with theorems settling the specification
claims.  Temperatures, powers and times are modelled as exact rationals
(every finite IEEE float is a rational); quantities produced by `sqrt`,
`log` and `exp` are modelled as real numbers.
-/

namespace ThermalSystem

/-! ## Controller (`src/thermal_manager.py`) -/

/-- `TEMP_MIN_C = 0` — start heating below 0 °C. -/
def TEMP_MIN_C : ℚ := 0

/-- `TEMP_TARGET_C = 5` — stop heating at or above 5 °C. -/
def TEMP_TARGET_C : ℚ := 5

/-- The controller's mutable state: the `currently_heating` local of `main`
and the shared `heating_active` worker flag (an int, 0 or 1). -/
structure CState where
  currentlyHeating : Bool
  heatingActive : ℕ
deriving DecidableEq, Repr

/-- Python's `str.strip()`: remove leading and trailing whitespace. -/
def strip (s : String) : String :=
  ⟨((s.data.dropWhile Char.isWhitespace).reverse.dropWhile Char.isWhitespace).reverse⟩

/-- `check_manual_override`: the override file's content (`none` models a
missing or unreadable file) is stripped and compared against the two
commands; anything else reports no override.  Returns
`(override_active, force_heating_on)`. -/
def checkManualOverride (content : Option String) : Bool × Bool :=
  match content with
  | none => (false, false)
  | some c =>
      let command := strip c
      if command = "HEATING_ON" then (true, true)
      else if command = "HEATING_OFF" then (true, false)
      else (false, false)

/-- The no-override branch of `main`'s loop body: hysteresis on the
temperature reading. -/
def autoStep (s : CState) (temp : ℚ) : CState :=
  if temp < TEMP_MIN_C ∧ s.currentlyHeating = false then ⟨true, 1⟩
  else if TEMP_TARGET_C ≤ temp ∧ s.currentlyHeating = true then ⟨false, 0⟩
  else s

/-- One iteration of `main`'s monitoring loop (logging elided): the
override result `(override_active, force_heating)` takes precedence,
otherwise the hysteresis rules apply. -/
def controlStep (s : CState) (ov : Bool × Bool) (temp : ℚ) : CState :=
  if ov.1 then
    if ov.2 ∧ s.currentlyHeating = false then ⟨true, 1⟩
    else if ov.2 = false ∧ s.currentlyHeating = true then ⟨false, 0⟩
    else s
  else autoStep s temp

/-- One loop iteration starting from the raw override-file content. -/
def controlStepFile (s : CState) (content : Option String) (temp : ℚ) : CState :=
  controlStep s (checkManualOverride content) temp

/-- A run of consecutive cycles with no override present. -/
def runCycles (s : CState) (temps : List ℚ) : CState :=
  temps.foldl (fun st T => controlStep st (false, false) T) s

/-- The flag always mirrors the heating state (they are only ever written
together in the source). -/
def FlagConsistent (s : CState) : Prop :=
  s.heatingActive = if s.currentlyHeating then 1 else 0

instance (s : CState) : Decidable (FlagConsistent s) := by
  unfold FlagConsistent; infer_instance

lemma dead_band_step (s : CState) (T : ℚ)
    (h1 : TEMP_MIN_C < T) (h2 : T < TEMP_TARGET_C) :
    controlStep s (false, false) T = s := by
  have hn1 : ¬(T < TEMP_MIN_C ∧ s.currentlyHeating = false) := by
    rintro ⟨hlt, -⟩; exact absurd (lt_trans h1 hlt) (lt_irrefl _)
  have hn2 : ¬(TEMP_TARGET_C ≤ T ∧ s.currentlyHeating = true) := by
    rintro ⟨hle, -⟩; exact absurd (lt_of_lt_of_le h2 hle) (lt_irrefl _)
  simp only [controlStep, autoStep, if_neg hn1, if_neg hn2]
  simp

/-- C1: with the override signal present, the override alone determines
the post-cycle state and worker flag, for every prior (flag-consistent)
state and every temperature: `HEATING_ON` yields `HEATING` with the flag
on, `HEATING_OFF` yields `IDLE` with the flag off. -/
theorem override_forces_state (s : CState) (T : ℚ)
    (hinv : FlagConsistent s) :
    (controlStep s (true, true) T).currentlyHeating = true ∧
    (controlStep s (true, true) T).heatingActive = 1 ∧
    (controlStep s (true, false) T).currentlyHeating = false ∧
    (controlStep s (true, false) T).heatingActive = 0 := by
  obtain ⟨h, a⟩ := s
  unfold FlagConsistent at hinv
  cases h <;> simp_all [controlStep]

theorem override_forces_state_witness :
    FlagConsistent ⟨true, 1⟩ ∧
    ((controlStep ⟨true, 1⟩ (true, true) (-7)).currentlyHeating = true ∧
     (controlStep ⟨true, 1⟩ (true, true) (-7)).heatingActive = 1 ∧
     (controlStep ⟨true, 1⟩ (true, false) (-7)).currentlyHeating = false ∧
     (controlStep ⟨true, 1⟩ (true, false) (-7)).heatingActive = 0) :=
  ⟨by decide, override_forces_state ⟨true, 1⟩ (-7) (by decide)⟩

/-- C2: for any starting state and any sequence of temperatures all
strictly inside the dead band `(TEMP_MIN, TEMP_TARGET)`, with no override
on any cycle, the state after the whole run equals the starting state. -/
theorem dead_band_no_chatter (s : CState) (temps : List ℚ)
    (h : ∀ T ∈ temps, TEMP_MIN_C < T ∧ T < TEMP_TARGET_C) :
    runCycles s temps = s := by
  induction temps with
  | nil => rfl
  | cons T ts ih =>
      have hT := h T (List.mem_cons_self _ _)
      have : runCycles s (T :: ts) = runCycles (controlStep s (false, false) T) ts := rfl
      rw [this, dead_band_step s T hT.1 hT.2]
      exact ih (fun T' hT' => h T' (List.mem_cons_of_mem _ hT'))

theorem dead_band_no_chatter_witness :
    (∀ T ∈ [(1 : ℚ), 2, 3, 4], TEMP_MIN_C < T ∧ T < TEMP_TARGET_C) ∧
    runCycles ⟨true, 1⟩ [(1 : ℚ), 2, 3, 4] = ⟨true, 1⟩ :=
  ⟨by intro T hT; fin_cases hT <;> constructor <;> norm_num [TEMP_MIN_C, TEMP_TARGET_C],
   dead_band_no_chatter ⟨true, 1⟩ _
     (by intro T hT; fin_cases hT <;> constructor <;> norm_num [TEMP_MIN_C, TEMP_TARGET_C])⟩

/-- C3: with no override, a single cycle at a temperature below
`TEMP_MIN` always ends in `HEATING`, and a single cycle at or above
`TEMP_TARGET` always ends in `IDLE`, whatever the prior state. -/
theorem threshold_forces_state (s : CState) (T : ℚ) :
    (T < TEMP_MIN_C → (controlStep s (false, false) T).currentlyHeating = true) ∧
    (TEMP_TARGET_C ≤ T → (controlStep s (false, false) T).currentlyHeating = false) := by
  constructor
  · intro hlt
    have hn2 : ¬(TEMP_TARGET_C ≤ T) := by
      rw [TEMP_TARGET_C]; rw [TEMP_MIN_C] at hlt; linarith
    by_cases hh : s.currentlyHeating = false
    · simp [controlStep, autoStep, hh, hlt]
    · simp only [Bool.not_eq_false] at hh
      simp [controlStep, autoStep, hh, hlt, hn2]
  · intro hge
    have hn1 : ¬(T < TEMP_MIN_C) := by
      rw [TEMP_MIN_C]; rw [TEMP_TARGET_C] at hge; linarith
    by_cases hh : s.currentlyHeating = true
    · simp [controlStep, autoStep, hh, hn1, hge]
    · simp only [Bool.not_eq_true] at hh
      simp [controlStep, autoStep, hh, hn1]

theorem threshold_forces_state_witness :
    ((-1 : ℚ) < TEMP_MIN_C ∧
      (controlStep ⟨true, 0⟩ (false, false) (-1)).currentlyHeating = true) ∧
    (TEMP_TARGET_C ≤ (7 : ℚ) ∧
      (controlStep ⟨true, 1⟩ (false, false) 7).currentlyHeating = false) :=
  ⟨⟨by norm_num [TEMP_MIN_C],
    (threshold_forces_state ⟨true, 0⟩ (-1)).1 (by norm_num [TEMP_MIN_C])⟩,
   ⟨by norm_num [TEMP_TARGET_C],
    (threshold_forces_state ⟨true, 1⟩ 7).2 (by norm_num [TEMP_TARGET_C])⟩⟩

/-- C10: any override-file content other than exactly `HEATING_ON` or
`HEATING_OFF` after stripping — and likewise a missing or unreadable
file — reports no override, so the cycle applies the automatic
hysteresis rules. -/
theorem invalid_override_ignored (c : String) (s : CState) (T : ℚ)
    (h1 : strip c ≠ "HEATING_ON") (h2 : strip c ≠ "HEATING_OFF") :
    checkManualOverride (some c) = (false, false) ∧
    checkManualOverride none = (false, false) ∧
    controlStepFile s (some c) T = autoStep s T ∧
    controlStepFile s none T = autoStep s T := by
  have hc : checkManualOverride (some c) = (false, false) := by
    simp only [checkManualOverride, if_neg h1, if_neg h2]
  refine ⟨hc, rfl, ?_, ?_⟩
  · simp only [controlStepFile, hc, controlStep]; simp
  · simp only [controlStepFile, checkManualOverride, controlStep]; simp

theorem invalid_override_ignored_witness :
    (strip "heating on!" ≠ "HEATING_ON" ∧ strip "heating on!" ≠ "HEATING_OFF") ∧
    (checkManualOverride (some "heating on!") = (false, false) ∧
     checkManualOverride none = (false, false) ∧
     controlStepFile ⟨false, 0⟩ (some "heating on!") (-3) = autoStep ⟨false, 0⟩ (-3) ∧
     controlStepFile ⟨false, 0⟩ none (-3) = autoStep ⟨false, 0⟩ (-3)) :=
  ⟨⟨by decide, by decide⟩,
   invalid_override_ignored "heating on!" ⟨false, 0⟩ (-3) (by decide) (by decide)⟩

/-! ## Ambient sensor read (`get_ambient_temp`) -/

/-- One thermal zone as seen through sysfs: `temp` is the parsed
millidegree reading of `thermal_zoneN/temp` (`none` when the file is
missing, unreadable or unparseable), `ztype` the stripped content of
`thermal_zoneN/type` (`none` when unreadable). -/
structure Zone where
  temp : Option ℤ
  ztype : Option String

/-- `'acpi' in zone_type.lower()`. -/
def containsAcpi (ty : String) : Prop :=
  "acpi".data <:+: (ty.data.map Char.toLower)

instance (ty : String) : Decidable (containsAcpi ty) := by
  unfold containsAcpi; infer_instance

/-- The ACPI-preference branch of `get_ambient_temp`: it inspects only
`thermal_zone0` (the `acpi_zones` list in the source has a single
entry); any read or parse failure falls through to the scan. -/
def acpiZoneRead (z : Zone) : Option (ℚ × String) :=
  match z.ztype with
  | none => none
  | some ty =>
      if containsAcpi ty then
        match z.temp with
        | some m => some ((m : ℚ) / 1000, "ACPI (" ++ ty ++ ")")
        | none => none
      else none

/-- One iteration of the fallback scan: zone `i`'s reading converted to
°C, paired with its type name (defaulting to `zone{i}` when the type
file is unreadable); `none` when the temp file does not parse. -/
def scanZone (env : ℕ → Zone) (i : ℕ) : Option (ℚ × String) :=
  match (env i).temp with
  | none => none
  | some m => some ((m : ℚ) / 1000, (env i).ztype.getD ("zone" ++ toString i))

/-- Python's `min(temps, key=lambda x: x[0])`: the first entry with the
minimal temperature (`none` on the empty list). -/
def minByTemp : List (ℚ × String) → Option (ℚ × String)
  | [] => none
  | x :: xs => some (xs.foldl (fun acc y => if y.1 < acc.1 then y else acc) x)

/-- `get_ambient_temp`: prefer zone 0 when it is typed ACPI, otherwise
scan zones 0–4 and keep the coldest parseable reading; `none` — the
sensor-unavailable failure seen by the caller — when nothing parses. -/
def getAmbientTemp (env : ℕ → Zone) : Option (ℚ × String) :=
  match acpiZoneRead (env 0) with
  | some r => some r
  | none => minByTemp ((List.range 5).filterMap (scanZone env))

lemma foldl_min_mem (x : ℚ × String) (xs : List (ℚ × String)) :
    xs.foldl (fun acc y => if y.1 < acc.1 then y else acc) x ∈ x :: xs := by
  induction xs generalizing x with
  | nil => exact List.mem_singleton.mpr rfl
  | cons y ys ih =>
      have h := ih (if y.1 < x.1 then y else x)
      simp only [List.foldl_cons]
      rcases List.mem_cons.mp h with h1 | h2
      · rw [h1]
        by_cases hc : y.1 < x.1
        · simp [hc]
        · simp [hc]
      · exact List.mem_cons_of_mem _ (List.mem_cons_of_mem _ h2)

lemma foldl_min_le (x : ℚ × String) (xs : List (ℚ × String)) :
    (xs.foldl (fun acc y => if y.1 < acc.1 then y else acc) x).1 ≤ x.1 ∧
    ∀ y ∈ xs, (xs.foldl (fun acc y => if y.1 < acc.1 then y else acc) x).1 ≤ y.1 := by
  induction xs generalizing x with
  | nil => exact ⟨le_refl _, by simp⟩
  | cons y ys ih =>
      obtain ⟨ih1, ih2⟩ := ih (if y.1 < x.1 then y else x)
      have hfx : (if y.1 < x.1 then y else x).1 ≤ x.1 := by
        by_cases hc : y.1 < x.1
        · simp only [if_pos hc]; exact le_of_lt hc
        · simp only [if_neg hc]; exact le_refl _
      have hfy : (if y.1 < x.1 then y else x).1 ≤ y.1 := by
        by_cases hc : y.1 < x.1
        · simp only [if_pos hc]; exact le_refl _
        · simp only [if_neg hc]; exact le_of_not_lt hc
      refine ⟨le_trans ih1 hfx, ?_⟩
      intro z hz
      rcases List.mem_cons.mp hz with rfl | hz'
      · exact le_trans ih1 hfy
      · exact ih2 z hz'

/-- C8 (amended): the ACPI preference applies to zone 0 only — when
zone 0 is typed ACPI and its reading parses, that reading is returned;
otherwise the scan of zones 0–4 returns the coldest parseable reading
(millidegrees divided by 1000); and when no zone parses, the read
yields no value (the sensor-unavailable failure) rather than a
temperature. -/
theorem ambient_read_policy (env : ℕ → Zone) :
    (∀ ty m, (env 0).ztype = some ty → containsAcpi ty → (env 0).temp = some m →
        getAmbientTemp env = some ((m : ℚ) / 1000, "ACPI (" ++ ty ++ ")")) ∧
    (acpiZoneRead (env 0) = none →
      ((∀ i, i < 5 → (env i).temp = none) → getAmbientTemp env = none) ∧
      (∀ r, getAmbientTemp env = some r →
          r ∈ (List.range 5).filterMap (scanZone env) ∧
          ∀ r' ∈ (List.range 5).filterMap (scanZone env), r.1 ≤ r'.1) ∧
      (∀ i, i < 5 → (env i).temp ≠ none → (getAmbientTemp env).isSome = true)) := by
  constructor
  · intro ty m hty hacpi hm
    simp only [getAmbientTemp, acpiZoneRead, hty, hm, if_pos hacpi]
  · intro hacpi0
    have hget : getAmbientTemp env = minByTemp ((List.range 5).filterMap (scanZone env)) := by
      simp only [getAmbientTemp, hacpi0]
    refine ⟨?_, ?_, ?_⟩
    · intro hall
      rw [hget]
      have : (List.range 5).filterMap (scanZone env) = [] := by
        rw [List.filterMap_eq_nil_iff]
        intro i hi
        have hi5 : i < 5 := List.mem_range.mp hi
        simp only [scanZone, hall i hi5]
      rw [this]; rfl
    · intro r hr
      rw [hget] at hr
      cases hl : (List.range 5).filterMap (scanZone env) with
      | nil => rw [hl] at hr; exact absurd hr (by simp [minByTemp])
      | cons x xs =>
          rw [hl] at hr
          simp only [minByTemp, Option.some.injEq] at hr
          subst hr
          refine ⟨foldl_min_mem x xs, ?_⟩
          intro r' hr'
          rcases List.mem_cons.mp hr' with rfl | hr''
          · exact (foldl_min_le _ xs).1
          · exact (foldl_min_le _ xs).2 r' hr''
    · intro i hi5 hne
      obtain ⟨m, hm⟩ := Option.ne_none_iff_exists'.mp hne
      have hmem : ((m : ℚ) / 1000, (env i).ztype.getD ("zone" ++ toString i)) ∈
          (List.range 5).filterMap (scanZone env) := by
        rw [List.mem_filterMap]
        exact ⟨i, List.mem_range.mpr hi5, by simp only [scanZone, hm]⟩
      rw [hget]
      cases hl : (List.range 5).filterMap (scanZone env) with
      | nil => rw [hl] at hmem; exact absurd hmem (List.not_mem_nil _)
      | cons x xs => simp [minByTemp]

/-- Environment falsifying C8 as stated: zone 1 is typed ACPI with a
warmer reading, zone 0 is a package sensor with a colder one. -/
def envAcpiElsewhere : ℕ → Zone := fun i =>
  if i = 0 then ⟨some 30000, some "x86_pkg_temp"⟩
  else if i = 1 then ⟨some 50000, some "acpitz"⟩
  else ⟨none, none⟩

/-- C8 counterexample: an ACPI-typed zone (zone 1, type `acpitz`,
reading 50 °C) exists and parses, yet the read returns zone 0's colder
reading 30 °C — the ACPI preference does not extend past zone 0. -/
theorem ambient_read_policy_counterexample :
    containsAcpi "acpitz" ∧ (envAcpiElsewhere 1).temp = some 50000 ∧
    getAmbientTemp envAcpiElsewhere = some (30, "x86_pkg_temp") ∧
    (30 : ℚ) ≠ (50000 : ℚ) / 1000 := by
  have h1 : ¬ containsAcpi "x86_pkg_temp" := by decide
  refine ⟨by decide, rfl, ?_, by norm_num⟩
  have hr : List.range 5 = [0, 1, 2, 3, 4] := rfl
  simp only [getAmbientTemp, acpiZoneRead, envAcpiElsewhere, hr]
  norm_num [h1, scanZone, minByTemp, envAcpiElsewhere, List.filterMap_cons]

/-- Environment for the C8 witness: zone 0 is typed ACPI. -/
def envAcpiZero : ℕ → Zone := fun i =>
  if i = 0 then ⟨some 21500, some "acpitz"⟩ else ⟨none, none⟩

theorem ambient_read_policy_witness :
    ((envAcpiZero 0).ztype = some "acpitz" ∧ containsAcpi "acpitz" ∧
      (envAcpiZero 0).temp = some 21500) ∧
    getAmbientTemp envAcpiZero = some ((21500 : ℚ) / 1000, "ACPI (" ++ "acpitz" ++ ")") :=
  ⟨⟨rfl, by decide, rfl⟩,
   (ambient_read_policy envAcpiZero).1 "acpitz" 21500 rfl (by decide) rfl⟩

/-! ## Ambient temperature estimator (`src/ambient_temp_estimator.py`)

Inputs are Python floats, modelled as NaN or an exact rational (every
finite IEEE float is rational).  Quantities produced by `sqrt` and
`log`/`exp` (`np.std`, the cooldown fit) are modelled as reals. -/

/-- A Python float input: NaN or a finite value. -/
inductive PyFloat where
  | nan : PyFloat
  | val : ℚ → PyFloat
deriving DecidableEq

/-- `np.isnan` / `math.isnan`. -/
def PyFloat.isnan : PyFloat → Bool
  | .nan => true
  | .val _ => false

/-- The finite value of a float; only ever applied after the NaN screen
(the `0` branch is unreachable there). -/
def PyFloat.toQ : PyFloat → ℚ
  | .nan => 0
  | .val x => x

/-- The persisted calibration record — the JSON object written by
`save_calibration` (all keys present; `R_th`, `b`, `tau`,
`calibration_time` may be null). -/
structure CalibRecord where
  R_th : Option ℚ
  b : Option ℚ
  sigma : ℝ
  calibrated : Bool
  calibration_time : Option ℕ
  n_samples : ℕ
  tau : Option ℝ

/-- The estimator's state: the mutable fields of `AmbientTempEstimator`
plus `store`, the content of the calibration file (`none` = absent).
Timestamps are abstracted to naturals supplied by the caller. -/
structure EstState where
  R_th : Option ℚ
  b : Option ℚ
  sigma : ℝ
  calibrated : Bool
  calibration_time : Option ℕ
  n_samples : ℕ
  tau : Option ℝ
  store : Option CalibRecord

/-- Field values set by `__init__` (which then runs `load_calibration`
on the file; with no file present the state stays as here). -/
noncomputable def initState : EstState :=
  { R_th := none, b := none, sigma := 3, calibrated := false,
    calibration_time := none, n_samples := 0, tau := none, store := none }

/-- The record `save_calibration` writes from the current fields. -/
def mkRecord (st : EstState) : CalibRecord :=
  { R_th := st.R_th, b := st.b, sigma := st.sigma, calibrated := st.calibrated,
    calibration_time := st.calibration_time, n_samples := st.n_samples, tau := st.tau }

/-- `save_calibration`: overwrite the calibration file with the current
fields. -/
def save_calibration (st : EstState) : EstState :=
  { st with store := some (mkRecord st) }

/-- `load_calibration`: with no file, report `False` and change nothing;
otherwise set every field from the record and report its `calibrated`
flag.  (The `.get` defaults only matter for foreign records; a record
written by `save_calibration` has every key.) -/
def load_calibration (st : EstState) : EstState × Bool :=
  match st.store with
  | none => (st, false)
  | some d =>
      ({ st with R_th := d.R_th, b := d.b, sigma := d.sigma,
                 calibrated := d.calibrated, calibration_time := d.calibration_time,
                 n_samples := d.n_samples, tau := d.tau }, d.calibrated)

/-- Calibration samples `(T_cpu, P, T_amb_measured)`. -/
abbrev Sample := PyFloat × PyFloat × PyFloat

/-- The regressor column: `P = np.array([s[1] for s in samples])`. -/
def powers (samples : List Sample) : List ℚ :=
  samples.map (fun s => s.2.1.toQ)

/-- The dependent variable: `delta_T = T_cpu - T_amb`. -/
def deltas (samples : List Sample) : List ℚ :=
  samples.map (fun s => s.1.toQ - s.2.2.toQ)

/-- `np.linalg.lstsq([P, 1], delta_T)`, first coefficient: on the
full-rank design matrix (two distinct powers) least squares equals the
normal-equations closed form embedded here.  (With all powers equal the
matrix is rank-deficient and `lstsq` returns the minimum-norm solution
instead; no claim concerns that case.) -/
def olsRth (samples : List Sample) : ℚ :=
  let n : ℚ := samples.length
  (n * (List.zipWith (· * ·) (powers samples) (deltas samples)).sum
      - (powers samples).sum * (deltas samples).sum) /
    (n * ((powers samples).map (fun p => p ^ 2)).sum - (powers samples).sum ^ 2)

/-- `np.linalg.lstsq([P, 1], delta_T)`, second coefficient. -/
def olsB (samples : List Sample) : ℚ :=
  ((deltas samples).sum - olsRth samples * (powers samples).sum) / (samples.length : ℚ)

/-- `errors = delta_T - X @ coeffs`. -/
def residuals (samples : List Sample) : List ℚ :=
  List.zipWith (fun p d => d - (olsRth samples * p + olsB samples))
    (powers samples) (deltas samples)

/-- `np.std(errors)`: square root of the centred mean square. -/
noncomputable def residStd (samples : List Sample) : ℝ :=
  Real.sqrt
    ((((residuals samples).map
        (fun e => (e - (residuals samples).sum / (samples.length : ℚ)) ^ 2)).sum /
      (samples.length : ℚ) : ℚ) : ℝ)

/-- `ss_res = np.sum(errors ** 2)`. -/
def ssRes (samples : List Sample) : ℚ :=
  ((residuals samples).map (fun e => e ^ 2)).sum

/-- `ss_tot = np.sum((delta_T - np.mean(delta_T)) ** 2)`. -/
def ssTot (samples : List Sample) : ℚ :=
  ((deltas samples).map
    (fun d => (d - (deltas samples).sum / (samples.length : ℚ)) ^ 2)).sum

/-- `r_squared = 1 - ss_res/ss_tot if ss_tot > 0 else 0.0`. -/
def rSquared (samples : List Sample) : ℚ :=
  if 0 < ssTot samples then 1 - ssRes samples / ssTot samples else 0

/-- The `ValueError`s `calibrate` can raise, by message. -/
inductive CalibError where
  | insufficientSamples
  | nanData
  | nonPositivePower
deriving DecidableEq

/-- The dictionary `calibrate` returns. -/
structure CalibResult where
  R_th : ℚ
  b : ℚ
  sigma : ℝ
  r_squared : ℚ
  n_samples : ℕ
  calibration_time : ℕ

/-- `calibrate`: validate (in source order: count, NaN, non-positive
power), then ordinary least squares of `ΔT` against `[P, 1]`, update
every model field, persist via `save_calibration`, and return the fit.
On a validation failure the exception is raised before any field is
assigned, so the state — store included — is returned unchanged. -/
noncomputable def calibrate (st : EstState) (samples : List Sample) (now : ℕ) :
    EstState × Except CalibError CalibResult :=
  if samples.length < 3 then (st, .error .insufficientSamples)
  else if samples.any (fun s => s.1.isnan || s.2.1.isnan || s.2.2.isnan) = true then
    (st, .error .nanData)
  else if samples.any (fun s => decide (s.2.1.toQ ≤ 0)) = true then
    (st, .error .nonPositivePower)
  else
    let st1 : EstState :=
      { st with R_th := some (olsRth samples), b := some (olsB samples),
                sigma := residStd samples, calibrated := true,
                calibration_time := some now, n_samples := samples.length }
    (save_calibration st1,
     .ok { R_th := olsRth samples, b := olsB samples, sigma := residStd samples,
           r_squared := rSquared samples, n_samples := samples.length,
           calibration_time := now })

/-- The `ValueError`s / `TypeError` `estimate` can raise, by message. -/
inductive EstimateError where
  | notCalibrated
  | nanInput
  | negativePower
  | typeError
deriving DecidableEq

/-- `estimate`: not-calibrated check first, then NaN, then negative
power, then the thermal model `T_amb = T_cpu - (P * R_th + b)`.  It
assigns no field, so it returns no new state: purity is part of the
embedding's type.  (`typeError` models Python's `TypeError` on `None`
arithmetic, unreachable when the calibration invariant holds.) -/
def estimate (st : EstState) (T_cpu P : PyFloat) : Except EstimateError (ℚ × ℝ) :=
  if st.calibrated = false then .error .notCalibrated
  else if T_cpu.isnan || P.isnan then .error .nanInput
  else if P.toQ < 0 then .error .negativePower
  else
    match st.R_th, st.b with
    | some r, some bb => .ok (T_cpu.toQ - (P.toQ * r + bb), st.sigma)
    | _, _ => .error .typeError

/-- IEEE comparison `P < c`: false when `P` is NaN. -/
def PyFloat.ltQ : PyFloat → ℚ → Prop
  | .nan, _ => False
  | .val x, c => x < c

instance : (p : PyFloat) → (c : ℚ) → Decidable (p.ltQ c)
  | .nan, _ => isFalse id
  | .val x, c => inferInstanceAs (Decidable (x < c))

/-- `estimate_with_cold_start_correction`: within the first minute of
uptime at low power, nudge `b` toward `P·R_th` with weight 0.1, persist
the adjusted bias, then estimate. -/
noncomputable def estimate_with_cold_start_correction (st : EstState)
    (T_cpu P : PyFloat) (uptime : ℚ) : EstState × Except EstimateError (ℚ × ℝ) :=
  if uptime < 60 ∧ P.ltQ 5 then
    match st.b, st.R_th with
    | some bb, some r =>
        let st1 := save_calibration
          { st with b := some (bb * (9/10) + (P.toQ * r) * (1/10)) }
        (st1, estimate st1 T_cpu P)
    | _, _ => (st, .error .typeError)
  else (st, estimate st T_cpu P)

/-- Cooldown points `(t_seconds, T_cpu)`. -/
abbrev CooldownPoint := ℚ × ℚ

/-- `t = t - t[0]`: time normalized so the first sample is `t = 0`. -/
def cooldownTimes (ts : List CooldownPoint) : List ℚ :=
  ts.map (fun p => p.1 - (ts.headI).1)

/-- `T_0 = T[0]`. -/
def cooldownT0 (ts : List CooldownPoint) : ℚ :=
  (ts.headI).2

/-- `y = np.log(T - T_amb_measured)`. -/
noncomputable def cooldownYs (ts : List CooldownPoint) (Tamb : ℚ) : List ℝ :=
  ts.map (fun p => Real.log ((p.2 : ℝ) - (Tamb : ℝ)))

/-- Slope of `np.polyfit(t, y, 1)` (simple least-squares line). -/
noncomputable def cooldownSlope (ts : List CooldownPoint) (Tamb : ℚ) : ℝ :=
  let t : List ℝ := (cooldownTimes ts).map (fun q => (q : ℝ))
  let y := cooldownYs ts Tamb
  let n : ℝ := ts.length
  (n * (List.zipWith (· * ·) t y).sum - t.sum * y.sum) /
    (n * (t.map (fun a => a ^ 2)).sum - t.sum ^ 2)

/-- Intercept of `np.polyfit(t, y, 1)`. -/
noncomputable def cooldownIntercept (ts : List CooldownPoint) (Tamb : ℚ) : ℝ :=
  ((cooldownYs ts Tamb).sum -
      cooldownSlope ts Tamb * ((cooldownTimes ts).map (fun q => (q : ℝ))).sum) /
    (ts.length : ℝ)

/-- `tau = -1.0 / slope`. -/
noncomputable def cooldownTau (ts : List CooldownPoint) (Tamb : ℚ) : ℝ :=
  -1 / cooldownSlope ts Tamb

/-- RMSE between the fitted curve and the observed points. -/
noncomputable def cooldownRmse (ts : List CooldownPoint) (Tamb : ℚ) : ℝ :=
  Real.sqrt
    (((List.zipWith
        (fun (T : ℚ) (t : ℚ) =>
          ((T : ℝ) - ((Tamb : ℝ) + ((cooldownT0 ts : ℚ) - Tamb : ℚ) *
            Real.exp (-(t : ℝ) / cooldownTau ts Tamb))) ^ 2)
        (ts.map (fun p => p.2)) (cooldownTimes ts)).sum) / (ts.length : ℝ))

/-- The `ValueError`s `fit_cooldown_curve` can raise, by message. -/
inductive FitError where
  | insufficientPoints
  | notAboveAmbient
deriving DecidableEq

/-- The dictionary `fit_cooldown_curve` returns. -/
structure FitResult where
  tau : ℝ
  T_amb_fitted : ℝ
  T_0 : ℚ
  T_amb_measured : ℚ
  rmse : ℝ

/-- `fit_cooldown_curve`: validate (≥ 5 points; all temperatures above
the measured ambient), fit `y = ln(T - T_amb)` linearly over normalized
time, set `self.tau := -1/slope`, and return τ, the fitted ambient
`T_0 - e^intercept` and the RMSE.  It never calls `save_calibration`,
so the store is untouched. -/
noncomputable def fit_cooldown_curve (st : EstState) (ts : List CooldownPoint)
    (Tamb : ℚ) : EstState × Except FitError FitResult :=
  if ts.length < 5 then (st, .error .insufficientPoints)
  else if ts.any (fun p => decide (p.2 ≤ Tamb)) = true then
    (st, .error .notAboveAmbient)
  else
    ({ st with tau := some (cooldownTau ts Tamb) },
     .ok { tau := cooldownTau ts Tamb,
           T_amb_fitted := ((cooldownT0 ts : ℚ) : ℝ) - Real.exp (cooldownIntercept ts Tamb),
           T_0 := cooldownT0 ts, T_amb_measured := Tamb,
           rmse := cooldownRmse ts Tamb })

/-- The documented data-model invariant: when `calibrated`, the
parameters are present (presence of a finite rational models "present
finite number") and at least 3 samples were used. -/
def EstInvariant (st : EstState) : Prop :=
  st.calibrated = true → st.R_th.isSome = true ∧ st.b.isSome = true ∧ 3 ≤ st.n_samples

instance (st : EstState) : Decidable (EstInvariant st) := by
  unfold EstInvariant; infer_instance

/-! ### List algebra for the least-squares proofs -/

lemma map_affine_sum (l : List ℚ) (A B : ℚ) :
    (l.map (fun x => A * x + B)).sum = A * l.sum + B * l.length := by
  induction l with
  | nil => simp
  | cons a t ih =>
      simp only [List.map_cons, List.sum_cons, ih, List.length_cons]
      push_cast
      ring

lemma zipWith_map_same (g : ℚ → ℚ → ℚ) (f : ℚ → ℚ) (l : List ℚ) :
    List.zipWith g l (l.map f) = l.map (fun x => g x (f x)) := by
  induction l with
  | nil => rfl
  | cons a t ih => simp [ih]

lemma map_quad_sum (l : List ℚ) (A B : ℚ) :
    (l.map (fun x => x * (A * x + B))).sum
      = A * (l.map (fun x => x ^ 2)).sum + B * l.sum := by
  induction l with
  | nil => simp
  | cons a t ih =>
      simp only [List.map_cons, List.sum_cons, ih]
      ring

lemma centered_sq_sum (l : List ℚ) (m : ℚ) :
    (l.map (fun x => (x - m) ^ 2)).sum =
      (l.map (fun x => x ^ 2)).sum - 2 * m * l.sum + l.length * m ^ 2 := by
  induction l with
  | nil => simp
  | cons a t ih =>
      simp only [List.map_cons, List.sum_cons, ih, List.length_cons]
      push_cast
      ring

lemma dev_sum_identity (l : List ℚ) (hn : (l.length : ℚ) ≠ 0) :
    (l.length : ℚ) * (l.map (fun x => (x - l.sum / l.length) ^ 2)).sum =
      (l.length : ℚ) * (l.map (fun x => x ^ 2)).sum - l.sum ^ 2 := by
  rw [centered_sq_sum]
  field_simp
  ring

lemma dev_sum_pos (l : List ℚ) (a b : ℚ) (ha : a ∈ l) (hb : b ∈ l) (hab : a ≠ b) :
    0 < (l.map (fun x => (x - l.sum / l.length) ^ 2)).sum := by
  obtain ⟨c, hc, hcm⟩ : ∃ c ∈ l, c ≠ l.sum / l.length := by
    by_cases h : a = l.sum / l.length
    · exact ⟨b, hb, fun hbm => hab (h.trans hbm.symm)⟩
    · exact ⟨a, ha, h⟩
  have h1 : (c - l.sum / l.length) ^ 2 ≤ (l.map (fun x => (x - l.sum / l.length) ^ 2)).sum := by
    apply List.single_le_sum
    · intro x hx
      obtain ⟨y, hy, rfl⟩ := List.mem_map.mp hx
      positivity
    · exact List.mem_map_of_mem _ hc
  have h2 : 0 < (c - l.sum / l.length) ^ 2 := by
    have hne := sub_ne_zero.mpr hcm
    positivity
  linarith

lemma sq_dev_sum_pos (l : List ℚ) (a b : ℚ) (ha : a ∈ l) (hb : b ∈ l) (hab : a ≠ b) :
    0 < (l.length : ℚ) * (l.map (fun x => x ^ 2)).sum - l.sum ^ 2 := by
  have hn : 0 < (l.length : ℚ) := by
    exact_mod_cast List.length_pos.mpr (List.ne_nil_of_mem ha)
  calc (0 : ℚ) < (l.length : ℚ) * (l.map (fun x => (x - l.sum / l.length) ^ 2)).sum :=
        mul_pos hn (dev_sum_pos l a b ha hb hab)
    _ = (l.length : ℚ) * (l.map (fun x => x ^ 2)).sum - l.sum ^ 2 :=
        dev_sum_identity l (ne_of_gt hn)

/-! ### Exact-fit facts about the calibration pipeline -/

/-- Samples generated exactly from the linear model with positive
powers, no NaN. -/
def ExactModel (Rstar bstar : ℚ) (samples : List Sample) : Prop :=
  ∀ s ∈ samples, ∃ tc p ta : ℚ,
    s = (.val tc, .val p, .val ta) ∧ 0 < p ∧ tc - ta = Rstar * p + bstar

lemma deltas_affine (Rstar bstar : ℚ) :
    ∀ samples : List Sample, ExactModel Rstar bstar samples →
      deltas samples = (powers samples).map (fun p => Rstar * p + bstar) := by
  intro samples
  induction samples with
  | nil => intro _; rfl
  | cons s t ih =>
      intro h
      obtain ⟨tc, p, ta, hs, hp, heq⟩ := h s (List.mem_cons_self _ _)
      have ht := ih (fun x hx => h x (List.mem_cons_of_mem _ hx))
      subst hs
      simp only [deltas, powers, List.map_cons, PyFloat.toQ] at ht ⊢
      rw [heq, ht]

lemma powers_pos (Rstar bstar : ℚ) (samples : List Sample)
    (h : ExactModel Rstar bstar samples) :
    ∀ p ∈ powers samples, 0 < p := by
  intro p hp
  obtain ⟨s, hs, rfl⟩ := List.mem_map.mp hp
  obtain ⟨tc, pp, ta, hs', hppos, -⟩ := h s hs
  subst hs'
  simpa [PyFloat.toQ] using hppos

lemma length_powers (samples : List Sample) :
    (powers samples).length = samples.length := by
  simp [powers]

lemma ols_exact (Rstar bstar : ℚ) (samples : List Sample)
    (hgen : ExactModel Rstar bstar samples)
    (hden : 0 < (samples.length : ℚ) * ((powers samples).map (fun p => p ^ 2)).sum
        - (powers samples).sum ^ 2)
    (hn : (samples.length : ℚ) ≠ 0) :
    olsRth samples = Rstar ∧ olsB samples = bstar := by
  have hd := deltas_affine Rstar bstar samples hgen
  have hsum : (deltas samples).sum
      = Rstar * (powers samples).sum + bstar * (samples.length : ℚ) := by
    rw [hd, map_affine_sum, length_powers]
  have hzip : (List.zipWith (· * ·) (powers samples) (deltas samples)).sum
      = Rstar * ((powers samples).map (fun p => p ^ 2)).sum
        + bstar * (powers samples).sum := by
    rw [hd, zipWith_map_same, map_quad_sum]
  have hR : olsRth samples = Rstar := by
    rw [olsRth, hzip, hsum]
    have hexp : (samples.length : ℚ) *
          (Rstar * ((powers samples).map (fun p => p ^ 2)).sum
            + bstar * (powers samples).sum)
          - (powers samples).sum *
            (Rstar * (powers samples).sum + bstar * (samples.length : ℚ))
        = Rstar * ((samples.length : ℚ) * ((powers samples).map (fun p => p ^ 2)).sum
            - (powers samples).sum ^ 2) := by ring
    rw [hexp, mul_div_assoc, div_self (ne_of_gt hden), mul_one]
  refine ⟨hR, ?_⟩
  rw [olsB, hR, hsum]
  have hexp2 : Rstar * (powers samples).sum + bstar * (samples.length : ℚ)
      - Rstar * (powers samples).sum = bstar * (samples.length : ℚ) := by ring
  rw [hexp2, mul_div_assoc, div_self hn, mul_one]

lemma residuals_const_zero (Rstar bstar : ℚ) (samples : List Sample)
    (hgen : ExactModel Rstar bstar samples)
    (hR : olsRth samples = Rstar) (hB : olsB samples = bstar) :
    residuals samples = (powers samples).map (fun _ => 0) := by
  have hd := deltas_affine Rstar bstar samples hgen
  rw [residuals, hR, hB, hd, zipWith_map_same]
  simp

lemma residuals_sum_zero (Rstar bstar : ℚ) (samples : List Sample)
    (hgen : ExactModel Rstar bstar samples)
    (hR : olsRth samples = Rstar) (hB : olsB samples = bstar) :
    (residuals samples).sum = 0 := by
  rw [residuals_const_zero Rstar bstar samples hgen hR hB]
  exact List.sum_eq_zero (by intro x hx; obtain ⟨y, -, rfl⟩ := List.mem_map.mp hx; rfl)

lemma residStd_zero (Rstar bstar : ℚ) (samples : List Sample)
    (hgen : ExactModel Rstar bstar samples)
    (hR : olsRth samples = Rstar) (hB : olsB samples = bstar) :
    residStd samples = 0 := by
  have h0 := residuals_const_zero Rstar bstar samples hgen hR hB
  have hmap : ((residuals samples).map
      (fun e => (e - (residuals samples).sum / (samples.length : ℚ)) ^ 2)).sum = 0 := by
    apply List.sum_eq_zero
    intro x hx
    obtain ⟨e, he, rfl⟩ := List.mem_map.mp hx
    rw [h0] at he
    obtain ⟨y, -, rfl⟩ := List.mem_map.mp he
    rw [residuals_sum_zero Rstar bstar samples hgen hR hB]
    simp
  rw [residStd, hmap]
  simp

lemma ssRes_zero (Rstar bstar : ℚ) (samples : List Sample)
    (hgen : ExactModel Rstar bstar samples)
    (hR : olsRth samples = Rstar) (hB : olsB samples = bstar) :
    ssRes samples = 0 := by
  rw [ssRes, residuals_const_zero Rstar bstar samples hgen hR hB]
  apply List.sum_eq_zero
  intro x hx
  obtain ⟨e, he, rfl⟩ := List.mem_map.mp hx
  obtain ⟨y, -, rfl⟩ := List.mem_map.mp he
  norm_num

lemma ssTot_exact (Rstar bstar : ℚ) (samples : List Sample)
    (hgen : ExactModel Rstar bstar samples)
    (hn : (samples.length : ℚ) ≠ 0) :
    ssTot samples = Rstar ^ 2 *
      ((powers samples).map
        (fun p => (p - (powers samples).sum / (samples.length : ℚ)) ^ 2)).sum := by
  have hd := deltas_affine Rstar bstar samples hgen
  rw [ssTot, hd, map_affine_sum, length_powers, List.map_map, ← List.sum_map_mul_left]
  apply congrArg
  apply List.map_congr_left
  intro p hp
  simp only [Function.comp_apply]
  field_simp
  ring

/-! ### Claim theorems for the estimator -/

/-- C4 (amended): for ≥ 3 samples generated exactly from
`ΔT = R_th*·P + b*` with zero noise, positive powers, at least two
distinct powers and `R_th* ≠ 0` (equivalently `SS_tot > 0`),
`calibrate` succeeds and returns exactly `R_th = R_th*`, `b = b*`,
`sigma = 0` and `r_squared = 1`; the least-squares/σ/R² mechanism named
by the claim is the embedding itself (`olsRth`, `olsB`, `residStd`,
`rSquared`, with R² taken as 0 when `SS_tot = 0`).  When `R_th* = 0`
all ΔT values coincide, `SS_tot = 0`, and the code returns
`r_squared = 0`, not 1 — see the counterexample. -/
theorem calibrate_recovers_exact_model (st : EstState) (samples : List Sample)
    (now : ℕ) (Rstar bstar : ℚ)
    (hlen : 3 ≤ samples.length)
    (hgen : ExactModel Rstar bstar samples)
    (hdistinct : ∃ p₁ ∈ powers samples, ∃ p₂ ∈ powers samples, p₁ ≠ p₂)
    (hRne : Rstar ≠ 0) :
    (calibrate st samples now).2 =
      Except.ok { R_th := Rstar, b := bstar, sigma := 0, r_squared := 1,
                  n_samples := samples.length, calibration_time := now } := by
  obtain ⟨p₁, hp₁, p₂, hp₂, hp12⟩ := hdistinct
  have h1 : ¬(samples.length < 3) := Nat.not_lt.mpr hlen
  have hn : (samples.length : ℚ) ≠ 0 := by
    have hpos : 0 < samples.length := by omega
    have : (0 : ℚ) < samples.length := by exact_mod_cast hpos
    exact ne_of_gt this
  have h2 : ¬(samples.any (fun s => s.1.isnan || s.2.1.isnan || s.2.2.isnan) = true) := by
    intro hc
    rw [List.any_eq_true] at hc
    obtain ⟨s, hs, hb⟩ := hc
    obtain ⟨tc, p, ta, rfl, -, -⟩ := hgen s hs
    simp [PyFloat.isnan] at hb
  have h3 : ¬(samples.any (fun s => decide (s.2.1.toQ ≤ 0)) = true) := by
    intro hc
    rw [List.any_eq_true] at hc
    obtain ⟨s, hs, hb⟩ := hc
    have hp := powers_pos Rstar bstar samples hgen _ (List.mem_map_of_mem _ hs)
    rw [decide_eq_true_iff] at hb
    exact absurd hp (not_lt.mpr hb)
  have hden := sq_dev_sum_pos (powers samples) p₁ p₂ hp₁ hp₂ hp12
  rw [length_powers] at hden
  obtain ⟨hR, hB⟩ := ols_exact Rstar bstar samples hgen hden hn
  have hsig := residStd_zero Rstar bstar samples hgen hR hB
  have hr2 : rSquared samples = 1 := by
    have hst := ssTot_exact Rstar bstar samples hgen hn
    have hdev := dev_sum_pos (powers samples) p₁ p₂ hp₁ hp₂ hp12
    rw [length_powers] at hdev
    have hR2 : 0 < Rstar ^ 2 :=
      lt_of_le_of_ne (sq_nonneg Rstar) (Ne.symm (pow_ne_zero 2 hRne))
    have hstpos : 0 < ssTot samples := by
      rw [hst]; exact mul_pos hR2 hdev
    rw [rSquared, if_pos hstpos, ssRes_zero Rstar bstar samples hgen hR hB]
    simp
  rw [calibrate, if_neg h1, if_neg h2, if_neg h3]
  dsimp only
  rw [hR, hB, hsig, hr2]

/-- Zero-noise data from the degenerate model `R_th* = 0`, `b* = 5`
(constant ΔT, two distinct powers). -/
def exDataFlat : List Sample :=
  [(.val 25, .val 7, .val 20), (.val 25, .val 12, .val 20), (.val 25, .val 22, .val 20)]

/-- C4 counterexample: for zero-noise samples from `R_th* = 0`,
`b* = 5` — three samples, distinct powers, so the claim's premises all
hold — `calibrate` succeeds but returns `r_squared = 0` (the
`SS_tot = 0` branch), not 1 as the claim states. -/
theorem calibrate_rsq_counterexample :
    ExactModel 0 5 exDataFlat ∧ 3 ≤ exDataFlat.length ∧
    ((.val 25, .val 7, .val 20) : Sample) ∈ exDataFlat ∧
    ((.val 25, .val 12, .val 20) : Sample) ∈ exDataFlat ∧
    ((7 : ℚ) ≠ 12) ∧
    (calibrate initState exDataFlat 0).2.toOption.map (fun r => r.r_squared) = some 0 := by
  have hst : ssTot exDataFlat = 0 := by
    norm_num [ssTot, deltas, exDataFlat, PyFloat.toQ]
  have hr : rSquared exDataFlat = 0 := by
    rw [rSquared, if_neg]
    rw [hst]
    exact lt_irrefl 0
  refine ⟨?_, by decide, by decide, by decide, by norm_num, ?_⟩
  · intro s hs
    fin_cases hs
    · exact ⟨25, 7, 20, rfl, by norm_num, by norm_num⟩
    · exact ⟨25, 12, 20, rfl, by norm_num, by norm_num⟩
    · exact ⟨25, 22, 20, rfl, by norm_num, by norm_num⟩
  · rw [calibrate, if_neg (by decide), if_neg (by decide), if_neg (by decide)]
    dsimp only [Except.toOption, Option.map]
    rw [hr]

/-- Zero-noise data from `R_th* = 2`, `b* = 1`. -/
def exDataLinear : List Sample :=
  [(.val 23, .val 1, .val 20), (.val 25, .val 2, .val 20), (.val 27, .val 3, .val 20)]

theorem calibrate_recovers_exact_model_witness :
    (3 ≤ exDataLinear.length ∧ ExactModel 2 1 exDataLinear ∧
      (∃ p₁ ∈ powers exDataLinear, ∃ p₂ ∈ powers exDataLinear, p₁ ≠ p₂) ∧
      (2 : ℚ) ≠ 0) ∧
    (calibrate initState exDataLinear 0).2 =
      Except.ok { R_th := 2, b := 1, sigma := 0, r_squared := 1,
                  n_samples := exDataLinear.length, calibration_time := 0 } := by
  have hgen : ExactModel 2 1 exDataLinear := by
    intro s hs
    fin_cases hs
    · exact ⟨23, 1, 20, rfl, by norm_num, by norm_num⟩
    · exact ⟨25, 2, 20, rfl, by norm_num, by norm_num⟩
    · exact ⟨27, 3, 20, rfl, by norm_num, by norm_num⟩
  have hdist : ∃ p₁ ∈ powers exDataLinear, ∃ p₂ ∈ powers exDataLinear, p₁ ≠ p₂ :=
    ⟨1, by decide, 2, by decide, by norm_num⟩
  exact ⟨⟨by decide, hgen, hdist, by norm_num⟩,
    calibrate_recovers_exact_model initState exDataLinear 0 2 1 (by decide) hgen hdist
      (by norm_num)⟩

/-- C9: `calibrate` is atomic on failure — on fewer than 3 samples, any
NaN value, or any non-positive power (checked in that order), the
returned state is the prior state itself, every field (`R_th`, `b`,
`sigma`, `calibrated`, `calibration_time`, `n_samples`, `tau`) and the
store included, so nothing is mutated or persisted. -/
theorem calibrate_atomic_on_failure (st : EstState) (samples : List Sample) (now : ℕ) :
    (samples.length < 3 →
      calibrate st samples now = (st, .error .insufficientSamples)) ∧
    (¬(samples.length < 3) →
      samples.any (fun s => s.1.isnan || s.2.1.isnan || s.2.2.isnan) = true →
      calibrate st samples now = (st, .error .nanData)) ∧
    (¬(samples.length < 3) →
      ¬(samples.any (fun s => s.1.isnan || s.2.1.isnan || s.2.2.isnan) = true) →
      samples.any (fun s => decide (s.2.1.toQ ≤ 0)) = true →
      calibrate st samples now = (st, .error .nonPositivePower)) := by
  refine ⟨?_, ?_, ?_⟩
  · intro h; rw [calibrate, if_pos h]
  · intro h1 h2; rw [calibrate, if_neg h1, if_pos h2]
  · intro h1 h2 h3; rw [calibrate, if_neg h1, if_neg h2, if_pos h3]

/-- Three samples, one with a NaN temperature. -/
def exNaN : List Sample :=
  [(.nan, .val 1, .val 20), (.val 30, .val 2, .val 20), (.val 35, .val 3, .val 20)]

/-- Three samples, one with zero power. -/
def exBadPower : List Sample :=
  [(.val 30, .val 0, .val 20), (.val 30, .val 2, .val 20), (.val 35, .val 3, .val 20)]

theorem calibrate_atomic_on_failure_witness :
    (([] : List Sample).length < 3 ∧
      calibrate initState [] 0 = (initState, .error .insufficientSamples)) ∧
    (¬(exNaN.length < 3) ∧
      exNaN.any (fun s => s.1.isnan || s.2.1.isnan || s.2.2.isnan) = true ∧
      calibrate initState exNaN 0 = (initState, .error .nanData)) ∧
    (¬(exBadPower.length < 3) ∧
      ¬(exBadPower.any (fun s => s.1.isnan || s.2.1.isnan || s.2.2.isnan) = true) ∧
      exBadPower.any (fun s => decide (s.2.1.toQ ≤ 0)) = true ∧
      calibrate initState exBadPower 0 = (initState, .error .nonPositivePower)) :=
  ⟨⟨by decide, (calibrate_atomic_on_failure initState [] 0).1 (by decide)⟩,
   ⟨by decide, by decide,
    (calibrate_atomic_on_failure initState exNaN 0).2.1 (by decide) (by decide)⟩,
   ⟨by decide, by decide, by decide,
    (calibrate_atomic_on_failure initState exBadPower 0).2.2 (by decide) (by decide)
      (by decide)⟩⟩

/-- C5: `estimate` fails with the not-calibrated error whenever
`calibrated` is false (checked before anything else); when calibrated
it fails with the validation error on NaN input, with the
negative-power error on `P < 0`, and otherwise — with the parameters
present, as the calibration invariant guarantees — returns exactly
`(T_cpu − (P·R_th + b), sigma)`.  It assigns no field: purity is part
of the embedding's type (`estimate` returns no state). -/
theorem estimate_contract (st : EstState) (T_cpu P : PyFloat) :
    (st.calibrated = false → estimate st T_cpu P = .error .notCalibrated) ∧
    (st.calibrated = true → (T_cpu.isnan || P.isnan) = true →
      estimate st T_cpu P = .error .nanInput) ∧
    (st.calibrated = true → (T_cpu.isnan || P.isnan) = false → P.toQ < 0 →
      estimate st T_cpu P = .error .negativePower) ∧
    (∀ r bb, st.calibrated = true → st.R_th = some r → st.b = some bb →
      (T_cpu.isnan || P.isnan) = false → ¬(P.toQ < 0) →
      estimate st T_cpu P = .ok (T_cpu.toQ - (P.toQ * r + bb), st.sigma)) := by
  refine ⟨?_, ?_, ?_, ?_⟩
  · intro h; rw [estimate, if_pos h]
  · intro h1 h2
    rw [estimate, if_neg (by simp [h1]), if_pos h2]
  · intro h1 h2 h3
    rw [estimate, if_neg (by simp [h1]), if_neg (by simp [h2]), if_pos h3]
  · intro r bb h1 hr hb h2 h3
    rw [estimate, if_neg (by simp [h1]), if_neg (by simp [h2]), if_neg h3, hr, hb]

/-- A calibrated state with `R_th = 2`, `b = 1`, `σ = 0`. -/
noncomputable def calibratedState : EstState :=
  { R_th := some 2, b := some 1, sigma := 0, calibrated := true,
    calibration_time := some 0, n_samples := 3, tau := none, store := none }

theorem estimate_contract_witness :
    (initState.calibrated = false ∧
      estimate initState (.val 25) (.val 7) = .error .notCalibrated) ∧
    (calibratedState.calibrated = true ∧ calibratedState.R_th = some 2 ∧
      calibratedState.b = some 1 ∧
      ((PyFloat.val 25).isnan || (PyFloat.val 7).isnan) = false ∧
      ¬((PyFloat.val 7).toQ < 0) ∧
      estimate calibratedState (.val 25) (.val 7) =
        .ok ((25 : ℚ) - (7 * 2 + 1), calibratedState.sigma)) :=
  ⟨⟨rfl, (estimate_contract initState (.val 25) (.val 7)).1 rfl⟩,
   ⟨rfl, rfl, rfl, rfl, by decide,
    (estimate_contract calibratedState (.val 25) (.val 7)).2.2.2 2 1 rfl rfl rfl rfl
      (by decide)⟩⟩

/-- C6: the data-model invariant (`calibrated → R_th and b present,
n_samples ≥ 3`) holds after every operation that touches these fields:
after any successful `calibrate`; after a `load_calibration` of the
record that calibrate persisted to the store (into any prior state,
e.g. a fresh estimator); and it is preserved by
`estimate_with_cold_start_correction` (which rewrites `b`) and by
`fit_cooldown_curve` (which sets only `tau`). -/
theorem calibration_invariant (st : EstState) (samples : List Sample) (now : ℕ) :
    ((calibrate st samples now).2.isOk = true →
      EstInvariant (calibrate st samples now).1 ∧
      ∀ st₂ : EstState,
        EstInvariant
          (load_calibration { st₂ with store := (calibrate st samples now).1.store }).1) ∧
    (EstInvariant st → ∀ T P u,
      EstInvariant (estimate_with_cold_start_correction st T P u).1) ∧
    (EstInvariant st → ∀ ts Tamb,
      EstInvariant (fit_cooldown_curve st ts Tamb).1) := by
  refine ⟨?_, ?_, ?_⟩
  · intro hok
    by_cases h1 : samples.length < 3
    · rw [calibrate, if_pos h1] at hok
      simp [Except.isOk, Except.toBool] at hok
    by_cases h2 : samples.any (fun s => s.1.isnan || s.2.1.isnan || s.2.2.isnan) = true
    · rw [calibrate, if_neg h1, if_pos h2] at hok
      simp [Except.isOk, Except.toBool] at hok
    by_cases h3 : samples.any (fun s => decide (s.2.1.toQ ≤ 0)) = true
    · rw [calibrate, if_neg h1, if_neg h2, if_pos h3] at hok
      simp [Except.isOk, Except.toBool] at hok
    rw [calibrate, if_neg h1, if_neg h2, if_neg h3]
    constructor
    · intro _
      refine ⟨rfl, rfl, ?_⟩
      simpa [save_calibration] using Nat.not_lt.mp h1
    · intro st₂
      intro _
      refine ⟨rfl, rfl, ?_⟩
      simpa [load_calibration, save_calibration, mkRecord] using Nat.not_lt.mp h1
  · intro hinv T P u
    rw [estimate_with_cold_start_correction]
    by_cases hc : u < 60 ∧ P.ltQ 5
    · rw [if_pos hc]
      cases hb : st.b with
      | none =>
          cases hr : st.R_th with
          | none => exact hinv
          | some r => exact hinv
      | some bb =>
          cases hr : st.R_th with
          | none => exact hinv
          | some r =>
              intro hcal
              refine ⟨?_, rfl, ?_⟩
              · simp [save_calibration, hr]
              · simpa [save_calibration] using (hinv hcal).2.2
    · rw [if_neg hc]
      exact hinv
  · intro hinv ts Tamb
    rw [fit_cooldown_curve]
    by_cases h1 : ts.length < 5
    · rw [if_pos h1]; exact hinv
    by_cases h2 : ts.any (fun p => decide (p.2 ≤ Tamb)) = true
    · rw [if_neg h1, if_pos h2]; exact hinv
    rw [if_neg h1, if_neg h2]
    intro hcal
    exact hinv hcal

theorem calibration_invariant_witness :
    (calibrate initState exDataLinear 0).2.isOk = true ∧
    (EstInvariant (calibrate initState exDataLinear 0).1 ∧
      ∀ st₂ : EstState,
        EstInvariant
          (load_calibration
            { st₂ with store := (calibrate initState exDataLinear 0).1.store }).1) ∧
    (EstInvariant initState ∧
      EstInvariant (estimate_with_cold_start_correction initState (.val 25) (.val 7) 10).1) ∧
    EstInvariant (fit_cooldown_curve initState [] 0).1 := by
  have hok : (calibrate initState exDataLinear 0).2.isOk = true := by
    rw [calibrate, if_neg (by decide), if_neg (by decide), if_neg (by decide)]
    rfl
  refine ⟨hok, (calibration_invariant initState exDataLinear 0).1 hok, ?_, ?_⟩
  · exact ⟨by decide,
      (calibration_invariant initState [] 0).2.1 (by decide) (.val 25) (.val 7) 10⟩
  · exact (calibration_invariant initState [] 0).2.2 (by decide) [] 0

/-- C7 (amended): `fit_cooldown_curve` fails with the validation error
on fewer than 5 points or when any temperature is at or below the
measured ambient; otherwise it succeeds — normalizing time to the
first sample (`cooldownTimes`), fitting `y = ln(T − T_amb_measured)`
by linear regression, recording `tau = −1/slope` in the in-memory
model and returning it with the fitted ambient `T_0 − e^intercept` and
the RMSE.  Contrary to the claim, it persists nothing: it never calls
`save_calibration`, so the store (and every other model field) is
unchanged; τ reaches the calibration store only at the next save,
whose record does carry `tau` and never the fitted ambient. -/
theorem fit_cooldown_contract (st : EstState) (ts : List CooldownPoint) (Tamb : ℚ) :
    (ts.length < 5 →
      fit_cooldown_curve st ts Tamb = (st, .error .insufficientPoints)) ∧
    (¬(ts.length < 5) → ts.any (fun p => decide (p.2 ≤ Tamb)) = true →
      fit_cooldown_curve st ts Tamb = (st, .error .notAboveAmbient)) ∧
    (¬(ts.length < 5) → ¬(ts.any (fun p => decide (p.2 ≤ Tamb)) = true) →
      fit_cooldown_curve st ts Tamb =
        ({ st with tau := some (cooldownTau ts Tamb) },
         .ok { tau := cooldownTau ts Tamb,
               T_amb_fitted :=
                 ((cooldownT0 ts : ℚ) : ℝ) - Real.exp (cooldownIntercept ts Tamb),
               T_0 := cooldownT0 ts, T_amb_measured := Tamb,
               rmse := cooldownRmse ts Tamb }) ∧
      (fit_cooldown_curve st ts Tamb).1.store = st.store ∧
      (fit_cooldown_curve st ts Tamb).1.R_th = st.R_th ∧
      (fit_cooldown_curve st ts Tamb).1.b = st.b ∧
      (fit_cooldown_curve st ts Tamb).1.calibrated = st.calibrated) := by
  refine ⟨?_, ?_, ?_⟩
  · intro h; rw [fit_cooldown_curve, if_pos h]
  · intro h1 h2; rw [fit_cooldown_curve, if_neg h1, if_pos h2]
  · intro h1 h2
    rw [fit_cooldown_curve, if_neg h1, if_neg h2]
    exact ⟨rfl, rfl, rfl, rfl, rfl⟩

/-- Five cooldown points, all strictly above the measured ambient 0. -/
def exCooldown : List CooldownPoint := [(0, 10), (30, 9), (60, 8), (90, 7), (120, 6)]

/-- C7 counterexample: a successful cooldown fit on 5 valid points
leaves the calibration store exactly as it was (here: absent) — τ is
not persisted by `fit_cooldown_curve`, contrary to the claim. -/
theorem fit_cooldown_no_persist_counterexample :
    exCooldown.length = 5 ∧ (∀ p ∈ exCooldown, (0 : ℚ) < p.2) ∧
    (fit_cooldown_curve initState exCooldown 0).2.isOk = true ∧
    (fit_cooldown_curve initState exCooldown 0).1.store = none := by
  have h1 : ¬(exCooldown.length < 5) := by decide
  have h2 : ¬(exCooldown.any (fun p => decide (p.2 ≤ (0 : ℚ))) = true) := by decide
  refine ⟨rfl, by decide, ?_, ?_⟩
  · rw [fit_cooldown_curve, if_neg h1, if_neg h2]
    rfl
  · rw [fit_cooldown_curve, if_neg h1, if_neg h2]
    rfl

theorem fit_cooldown_contract_witness :
    (¬(exCooldown.length < 5) ∧
      ¬(exCooldown.any (fun p => decide (p.2 ≤ (0 : ℚ))) = true)) ∧
    (fit_cooldown_curve initState exCooldown 0 =
        ({ initState with tau := some (cooldownTau exCooldown 0) },
         .ok { tau := cooldownTau exCooldown 0,
               T_amb_fitted :=
                 ((cooldownT0 exCooldown : ℚ) : ℝ) -
                   Real.exp (cooldownIntercept exCooldown 0),
               T_0 := cooldownT0 exCooldown, T_amb_measured := 0,
               rmse := cooldownRmse exCooldown 0 }) ∧
      (fit_cooldown_curve initState exCooldown 0).1.store = initState.store ∧
      (fit_cooldown_curve initState exCooldown 0).1.R_th = initState.R_th ∧
      (fit_cooldown_curve initState exCooldown 0).1.b = initState.b ∧
      (fit_cooldown_curve initState exCooldown 0).1.calibrated = initState.calibrated) :=
  ⟨⟨by decide, by decide⟩,
   (fit_cooldown_contract initState exCooldown 0).2.2 (by decide) (by decide)⟩

end ThermalSystem
